import Mathlib

/-!
Verification of the rusting_raytracer core (src/main.rs, src/math.rs).

The embedding models `f64` values as exact real numbers (`ℝ`): finite
floating-point arithmetic is idealized as exact real arithmetic, and
`f64::sqrt` as `Real.sqrt`.  For the one routine whose behaviour depends on
the IEEE special values (ray-plane division producing `±inf`/`NaN` in
`Triangle::intersect`), a second model `EF` with explicit `nan`/`±inf`
constructors is developed further below.
-/

namespace RT

noncomputable section

/-- Source: `math.rs::min` — three-way minimum with the source's exact
compare structure. -/
def min3 (a b c : ℝ) : ℝ :=
  if a < b ∧ a < c then a else if b < c then b else c

/-- Source: `math.rs::max` — three-way maximum with the source's exact
compare structure. -/
def max3 (a b c : ℝ) : ℝ :=
  if a > b ∧ a > c then a else if b > c then b else c

/-- Source: `math.rs::clamp`. -/
def clamp (value lo hi : ℝ) : ℝ :=
  if value > hi then hi else if value < lo then lo else value

/-- Source: `math.rs::V3`. -/
structure V3 where
  x : ℝ
  y : ℝ
  z : ℝ
deriving DecidableEq

/-- Source: `V3::add`. -/
def V3.add (self other : V3) : V3 :=
  ⟨self.x + other.x, self.y + other.y, self.z + other.z⟩

/-- Source: `V3::subtract`. -/
def V3.subtract (self other : V3) : V3 :=
  ⟨self.x - other.x, self.y - other.y, self.z - other.z⟩

/-- Source: `V3::multiply`. -/
def V3.multiply (self : V3) (amount : ℝ) : V3 :=
  ⟨self.x * amount, self.y * amount, self.z * amount⟩

/-- Source: `V3::dot`. -/
def V3.dot (self other : V3) : ℝ :=
  self.x * other.x + self.y * other.y + self.z * other.z

/-- Source: `V3::cross`. -/
def V3.cross (self other : V3) : V3 :=
  ⟨self.y * other.z - self.z * other.y,
   self.z * other.x - self.x * other.z,
   self.x * other.y - self.y * other.x⟩

/-- Source: `V3::length` (Euclidean norm via `f64::sqrt`). -/
def V3.length (self : V3) : ℝ :=
  Real.sqrt (self.x * self.x + self.y * self.y + self.z * self.z)

/-- Source: `V3::normalize` (divide each component by the length). -/
def V3.normalize (self : V3) : V3 :=
  ⟨self.x / self.length, self.y / self.length, self.z / self.length⟩

/-- Source: `V3::lerp`. -/
def V3.lerp (self other : V3) (r : ℝ) : V3 :=
  (((other.subtract self).multiply r).add self)

/-- Source: `main.rs::Color`. -/
structure Color where
  r : ℝ
  g : ℝ
  b : ℝ
deriving DecidableEq

/-- Source: `Color::add`. -/
def Color.add (self other : Color) : Color :=
  ⟨self.r + other.r, self.g + other.g, self.b + other.b⟩

/-- Source: `Color::subtract`. -/
def Color.subtract (self other : Color) : Color :=
  ⟨self.r - other.r, self.g - other.g, self.b - other.b⟩

/-- Source: `Color::multiply`. -/
def Color.multiply (self : Color) (amount : ℝ) : Color :=
  ⟨self.r * amount, self.g * amount, self.b * amount⟩

/-- Source: `Color::relative_element_wise_multiply` — `(self/255) * other`
per channel. -/
def Color.relative_element_wise_multiply (self other : Color) : Color :=
  ⟨self.r / 255 * other.r, self.g / 255 * other.g, self.b / 255 * other.b⟩

/-- Source: `Color::lerp`. -/
def Color.lerp (self other : Color) (r : ℝ) : Color :=
  ((other.subtract self).multiply r).add self

/-- Source: `main.rs` settings constants. -/
def FOCAL_LENGTH : ℝ := 10

/-- Source: `main.rs::CAMERA_POSITION` — `{0, 0, -FOCAL_LENGTH}`. -/
def CAMERA_POSITION : V3 := ⟨0, 0, -FOCAL_LENGTH⟩

/-- Source: `main.rs::FADE_DISTANCE_START`. -/
def FADE_DISTANCE_START : ℝ := 1000000

/-- Source: `main.rs::FADE_DISTANCE_END`. -/
def FADE_DISTANCE_END : ℝ := 2000000

/-- Source: `main.rs::SPECULAR_REFLECTION_CONSTANT`. -/
def SPECULAR_REFLECTION_CONSTANT : ℝ := 0.5

/-- Source: `main.rs::DIFFUSE_REFLECTION_CONSTANT`. -/
def DIFFUSE_REFLECTION_CONSTANT : ℝ := 0.1

/-- Source: `main.rs::AMBIENT_REFLECTION_CONSTANT`. -/
def AMBIENT_REFLECTION_CONSTANT : ℝ := 0.1

/-- Source: `main.rs::MATERIAL_SHININESS_CONSTANT`. -/
def MATERIAL_SHININESS_CONSTANT : ℝ := 1.5

/-- Source: `main.rs::COLOR_BLACK`. -/
def COLOR_BLACK : Color := ⟨0, 0, 0⟩

/-- Source: `main.rs::COLOR_RED`. -/
def COLOR_RED : Color := ⟨255, 0, 0⟩

/-- The exact value of `f64::MAX`, `(2^53 - 1) * 2^971`. -/
def f64MAX : ℝ := 2 ^ 1024 - 2 ^ 971

/-- Source: `main.rs::ColorMode`. -/
inductive ColorMode where
  | StaticColor
  | Normals
  | Light

/-- Source: `main.rs::COLOR_MODE` (the compiled-in mode is `Light`). -/
def COLOR_MODE : ColorMode := ColorMode.Light

/-- Source: `main.rs::Ray`. -/
structure Ray where
  origin : V3
  direction : V3

/-- Source: `main.rs::Sphere`. -/
structure Sphere where
  center : V3
  radius : ℝ
  color : Color

/-- Source: `main.rs::Triangle`. -/
structure Triangle where
  p1 : V3
  p2 : V3
  p3 : V3
  color : Color

/-- Source: `main.rs::Light`. -/
structure Light where
  position : V3
  diffuse_component : Color
  specular_component : Color

/-- Source: `main.rs::Hit`. -/
structure Hit where
  point : V3
  material_color : Color
  distance : ℝ
  surface_normal : V3

/-- Source: `main.rs::Object`. -/
inductive Object where
  | SphereObject (s : Sphere)
  | TriangleObject (t : Triangle)
  | LightObject (l : Light)

/-- Source: `Sphere::intersect`, line `let a = ray.direction.dot(&ray.direction)`. -/
def Sphere.qa (ray : Ray) : ℝ := ray.direction.dot ray.direction

/-- Source: `Sphere::intersect`, line `let b = 2.0 * origin_to_center.dot(&ray.direction)`. -/
def Sphere.qb (self : Sphere) (ray : Ray) : ℝ :=
  2 * (ray.origin.subtract self.center).dot ray.direction

/-- Source: `Sphere::intersect`, line
`let c = origin_to_center.dot(&origin_to_center) - self.radius * self.radius`. -/
def Sphere.qc (self : Sphere) (ray : Ray) : ℝ :=
  (ray.origin.subtract self.center).dot (ray.origin.subtract self.center) -
    self.radius * self.radius

/-- Source: `Sphere::intersect`, line `let discriminant = b * b - 4.0 * a * c`. -/
def Sphere.discriminant (self : Sphere) (ray : Ray) : ℝ :=
  Sphere.qb self ray * Sphere.qb self ray - 4 * Sphere.qa ray * Sphere.qc self ray

/-- Source: `impl Intersectable for Sphere::intersect`.  Note the source's
`(-b + discriminant.sqrt()) / 2.0 * a`: by precedence this divides by `2.0`
and then multiplies by `a` (it is not `/(2a)`). -/
def Sphere.intersect (self : Sphere) (ray : Ray) : Option Hit :=
  let a := Sphere.qa ray
  let b := Sphere.qb self ray
  let discriminant := Sphere.discriminant self ray
  if discriminant < 0 then none
  else
    let solution1 := (-b + Real.sqrt discriminant) / 2 * a
    let solution2 := (-b - Real.sqrt discriminant) / 2 * a
    let closest_solution := min3 solution1 solution2 f64MAX
    let intersection := ray.origin.add (ray.direction.multiply closest_solution)
    let distance := (intersection.subtract ray.origin).length
    let normal := (intersection.subtract self.center).normalize
    some ⟨intersection, self.color, distance, normal⟩

/-- Source: `main.rs::points_are_on_same_side_of_ray`. -/
def points_are_on_same_side_of_ray (point_to_test_1 point_to_test_2
    line_start_point line_end_point : V3) : Bool :=
  let boundary_vec := line_start_point.subtract line_end_point
  let point_1_vec := boundary_vec.cross (point_to_test_1.subtract line_end_point)
  let point_2_vec := boundary_vec.cross (point_to_test_2.subtract line_end_point)
  decide (point_1_vec.dot point_2_vec > 0)

/-- Source: `Triangle::intersect`, the plane normal
`side1.cross(&side2)` with `side1 = p2 - p1`, `side2 = p3 - p1`. -/
def Triangle.normal (self : Triangle) : V3 :=
  (self.p2.subtract self.p1).cross (self.p3.subtract self.p1)

/-- Source: `Triangle::intersect`, `let plane_k = normal.multiply(-1.0).dot(&self.p1)`. -/
def Triangle.plane_k (self : Triangle) : ℝ :=
  (self.normal.multiply (-1)).dot self.p1

/-- Source: `Triangle::intersect`, the ray-plane intersection parameter
`distance_along_ray` (exact-real model: division by a zero denominator is
Lean's `x / 0 = 0`; the IEEE behaviour is modelled separately below). -/
def Triangle.distance_along_ray (self : Triangle) (ray : Ray) : ℝ :=
  -((self.normal.x * ray.origin.x + self.normal.y * ray.origin.y +
     self.normal.z * ray.origin.z + self.plane_k) /
    (self.normal.x * ray.direction.x + self.normal.y * ray.direction.y +
     self.normal.z * ray.direction.z))

/-- Source: `impl Intersectable for Triangle::intersect` (exact-real model). -/
def Triangle.intersect (self : Triangle) (ray : Ray) : Option Hit :=
  let normal := self.normal
  let distance_along_ray := self.distance_along_ray ray
  if distance_along_ray < 0 then none
  else
    let intersection := ray.origin.add (ray.direction.multiply distance_along_ray)
    if intersection.x < min3 self.p1.x self.p2.x self.p3.x then none
    else if intersection.x > max3 self.p1.x self.p2.x self.p3.x then none
    else if intersection.y < min3 self.p1.y self.p2.y self.p3.y then none
    else if intersection.y > max3 self.p1.y self.p2.y self.p3.y then none
    else if intersection.z < min3 self.p1.z self.p2.z self.p3.z then none
    else if intersection.z > max3 self.p1.z self.p2.z self.p3.z then none
    else if ! points_are_on_same_side_of_ray intersection self.p1 self.p2 self.p3 then none
    else if ! points_are_on_same_side_of_ray intersection self.p2 self.p3 self.p1 then none
    else if ! points_are_on_same_side_of_ray intersection self.p3 self.p1 self.p2 then none
    else some ⟨intersection, self.color,
               (intersection.subtract ray.origin).length, normal.normalize⟩

/-- Source: the body of the `for obj in scene.iter()` loop of
`get_color_for_hitpoint` in `ColorMode::Light`, processing the scene in
order and accumulating `resulting_light` (the source's unused
`all_light_sources_summed` accumulator has no effect and is omitted). -/
def light_mode_loop (hit : Hit) : List Object → Color → Color
  | [], resulting_light => resulting_light
  | obj :: rest, resulting_light =>
    match obj with
    | Object.LightObject light_object =>
      let vec_to_light_source := (light_object.position.subtract hit.point).normalize
      let l_dot_n := vec_to_light_source.dot hit.surface_normal
      let diffuse_light_part :=
        light_object.diffuse_component.multiply (DIFFUSE_REFLECTION_CONSTANT * l_dot_n)
      let diffuse_part := diffuse_light_part.relative_element_wise_multiply hit.material_color
      let v_to_camera := (CAMERA_POSITION.subtract hit.point).normalize
      let reflected_ray_direction :=
        ((hit.surface_normal.multiply (l_dot_n * 2)).subtract vec_to_light_source).normalize
      let r_dot_v := reflected_ray_direction.dot v_to_camera
      let acc1 := resulting_light.add diffuse_part
      let acc2 :=
        if r_dot_v > 0 then
          acc1.add (light_object.specular_component.multiply
            (Real.rpow (SPECULAR_REFLECTION_CONSTANT * r_dot_v) MATERIAL_SHININESS_CONSTANT))
        else acc1
      light_mode_loop hit rest acc2
    | _ => light_mode_loop hit rest resulting_light

/-- Source: the `match COLOR_MODE` expression of `get_color_for_hitpoint`
(the computed colour before the distance fade); the process-wide constant
`COLOR_MODE` is made an explicit parameter. -/
def computed_color (mode : ColorMode) (hit : Hit) (scene : List Object) : Color :=
  match mode with
  | ColorMode.StaticColor => COLOR_RED
  | ColorMode.Normals =>
      ⟨(hit.surface_normal.x + 1) * 127.5,
       (hit.surface_normal.y + 1) * 127.5,
       (hit.surface_normal.z + 1) * 127.5⟩
  | ColorMode.Light =>
      (light_mode_loop hit scene ⟨0, 0, 0⟩).add
        (hit.material_color.multiply AMBIENT_REFLECTION_CONSTANT)

/-- Source: `main.rs::get_color_for_hitpoint` — the computed colour followed
by the distance fade. -/
def get_color_for_hitpoint (mode : ColorMode) (hit : Hit) (scene : List Object) : Color :=
  let c := computed_color mode hit scene
  if hit.distance > FADE_DISTANCE_START then
    c.lerp COLOR_BLACK
      (clamp ((hit.distance - FADE_DISTANCE_START) / (FADE_DISTANCE_END - FADE_DISTANCE_START)) 0 1)
  else c

/-- Source: the `match obj` dispatch inside `send_ray` (a `Light` never
produces a hit). -/
def intersect_object (obj : Object) (ray : Ray) : Option Hit :=
  match obj with
  | Object.SphereObject s => s.intersect ray
  | Object.TriangleObject t => t.intersect ray
  | Object.LightObject _ => none

/-- Source: one iteration of the closest-hit loop of `send_ray` — keep the
new hit exactly when its distance is strictly below the current closest
distance. -/
def closest_step (ray : Ray) (acc : ℝ × Option Hit) (obj : Object) : ℝ × Option Hit :=
  match intersect_object obj ray with
  | some hit => if hit.distance < acc.1 then (hit.distance, some hit) else acc
  | none => acc

/-- Source: the closest-hit loop of `send_ray`, carrying
`(closest_hit_distance, closest_hit)` with initial state
`(std::f64::MAX, None)`. -/
def send_ray_fold (scene : List Object) (ray : Ray) : ℝ × Option Hit :=
  scene.foldl (closest_step ray) (f64MAX, none)

/-- Source: `main.rs::send_ray`. -/
def send_ray (scene : List Object) (ray : Ray) : Color :=
  match (send_ray_fold scene ray).2 with
  | some hit => get_color_for_hitpoint COLOR_MODE hit scene
  | none => COLOR_BLACK

/-- The lights of a scene, in scene order (source: the `Object::LightObject`
arm of the loop of `get_color_for_hitpoint`). -/
def scene_lights (scene : List Object) : List Light :=
  scene.filterMap (fun obj =>
    match obj with
    | Object.LightObject l => some l
    | _ => none)

/-- All hits the scene's objects produce for a ray, in scene order. -/
def scene_hits (scene : List Object) (ray : Ray) : List Hit :=
  scene.filterMap (fun obj => intersect_object obj ray)

/-- One light's total contribution in `ColorMode::Light`: the diffuse part
plus, when `r_dot_v > 0`, the specular part (the loop body of
`get_color_for_hitpoint` for a single `Light`). -/
def light_contribution (hit : Hit) (light_object : Light) : Color :=
  let vec_to_light_source := (light_object.position.subtract hit.point).normalize
  let l_dot_n := vec_to_light_source.dot hit.surface_normal
  let diffuse_part :=
    (light_object.diffuse_component.multiply
      (DIFFUSE_REFLECTION_CONSTANT * l_dot_n)).relative_element_wise_multiply hit.material_color
  let v_to_camera := (CAMERA_POSITION.subtract hit.point).normalize
  let reflected_ray_direction :=
    ((hit.surface_normal.multiply (l_dot_n * 2)).subtract vec_to_light_source).normalize
  let r_dot_v := reflected_ray_direction.dot v_to_camera
  if r_dot_v > 0 then
    diffuse_part.add (light_object.specular_component.multiply
      (Real.rpow (SPECULAR_REFLECTION_CONSTANT * r_dot_v) MATERIAL_SHININESS_CONSTANT))
  else diffuse_part

/-- Sum of a list of colours with `Color::add`, starting from black. -/
def sum_colors : List Color → Color
  | [] => COLOR_BLACK
  | c :: rest => c.add (sum_colors rest)

/-- An `f64` with the IEEE special values made explicit: `NaN`, `+inf`,
`-inf`, or a finite value (finite arithmetic idealized as exact).  Used to
model the code paths whose behaviour depends on IEEE division by zero. -/
inductive EF where
  | nan
  | pinf
  | minf
  | fin (v : ℝ)

/-- IEEE negation on `EF`. -/
def EF.neg : EF → EF
  | .nan => .nan
  | .pinf => .minf
  | .minf => .pinf
  | .fin v => .fin (-v)

/-- IEEE addition on `EF` (opposite infinities give `NaN`). -/
def EF.add : EF → EF → EF
  | .nan, _ => .nan
  | _, .nan => .nan
  | .pinf, .minf => .nan
  | .minf, .pinf => .nan
  | .pinf, _ => .pinf
  | _, .pinf => .pinf
  | .minf, _ => .minf
  | _, .minf => .minf
  | .fin a, .fin b => .fin (a + b)

/-- IEEE subtraction on `EF`. -/
def EF.sub (a b : EF) : EF := a.add b.neg

/-- IEEE multiplication on `EF` (`0 * inf = NaN`). -/
def EF.mul : EF → EF → EF
  | .nan, _ => .nan
  | _, .nan => .nan
  | .pinf, .pinf => .pinf
  | .pinf, .minf => .minf
  | .minf, .pinf => .minf
  | .minf, .minf => .pinf
  | .pinf, .fin b => if b > 0 then .pinf else if b < 0 then .minf else .nan
  | .fin a, .pinf => if a > 0 then .pinf else if a < 0 then .minf else .nan
  | .minf, .fin b => if b > 0 then .minf else if b < 0 then .pinf else .nan
  | .fin a, .minf => if a > 0 then .minf else if a < 0 then .pinf else .nan
  | .fin a, .fin b => .fin (a * b)

/-- IEEE division on `EF`: a nonzero finite value divided by (positive)
zero gives a signed infinity, `0/0` gives `NaN` (the model has no negative
zero). -/
def EF.div : EF → EF → EF
  | .nan, _ => .nan
  | _, .nan => .nan
  | .pinf, .pinf => .nan
  | .pinf, .minf => .nan
  | .minf, .pinf => .nan
  | .minf, .minf => .nan
  | .pinf, .fin b => if b < 0 then .minf else .pinf
  | .minf, .fin b => if b < 0 then .pinf else .minf
  | .fin _, .pinf => .fin 0
  | .fin _, .minf => .fin 0
  | .fin a, .fin b =>
      if b = 0 then (if a > 0 then .pinf else if a < 0 then .minf else .nan)
      else .fin (a / b)

/-- IEEE square root on `EF` (`NaN` for negative inputs and `-inf`). -/
def EF.sqrt : EF → EF
  | .nan => .nan
  | .pinf => .pinf
  | .minf => .nan
  | .fin v => if v < 0 then .nan else .fin (Real.sqrt v)

/-- IEEE `<` on `EF` as a boolean: every comparison with `NaN` is false. -/
def EF.lt : EF → EF → Bool
  | .nan, _ => false
  | _, .nan => false
  | .minf, .minf => false
  | .minf, _ => true
  | .pinf, _ => false
  | .fin _, .minf => false
  | .fin _, .pinf => true
  | .fin a, .fin b => decide (a < b)

/-- IEEE `>` on `EF`: `a > b` holds exactly when `b < a`. -/
def EF.gt (a b : EF) : Bool := EF.lt b a

/-- A 3-vector of `EF` components. -/
structure V3F where
  x : EF
  y : EF
  z : EF

/-- Injection of a finite vector into the `EF` model. -/
def V3.toF (self : V3) : V3F := ⟨.fin self.x, .fin self.y, .fin self.z⟩

/-- Source: `V3::add`, in the `EF` model. -/
def V3F.add (self other : V3F) : V3F :=
  ⟨self.x.add other.x, self.y.add other.y, self.z.add other.z⟩

/-- Source: `V3::subtract`, in the `EF` model. -/
def V3F.subtract (self other : V3F) : V3F :=
  ⟨self.x.sub other.x, self.y.sub other.y, self.z.sub other.z⟩

/-- Source: `V3::multiply`, in the `EF` model. -/
def V3F.multiply (self : V3F) (amount : EF) : V3F :=
  ⟨self.x.mul amount, self.y.mul amount, self.z.mul amount⟩

/-- Source: `V3::dot`, in the `EF` model. -/
def V3F.dot (self other : V3F) : EF :=
  ((self.x.mul other.x).add (self.y.mul other.y)).add (self.z.mul other.z)

/-- Source: `V3::cross`, in the `EF` model. -/
def V3F.cross (self other : V3F) : V3F :=
  ⟨(self.y.mul other.z).sub (self.z.mul other.y),
   (self.z.mul other.x).sub (self.x.mul other.z),
   (self.x.mul other.y).sub (self.y.mul other.x)⟩

/-- Source: `V3::length`, in the `EF` model. -/
def V3F.length (self : V3F) : EF :=
  (((self.x.mul self.x).add (self.y.mul self.y)).add (self.z.mul self.z)).sqrt

/-- Source: `V3::normalize`, in the `EF` model. -/
def V3F.normalize (self : V3F) : V3F :=
  ⟨self.x.div self.length, self.y.div self.length, self.z.div self.length⟩

/-- A `Hit` whose numeric fields live in the `EF` model. -/
structure HitF where
  point : V3F
  material_color : Color
  distance : EF
  surface_normal : V3F

/-- Source: `main.rs::points_are_on_same_side_of_ray`, in the `EF` model. -/
def points_are_on_same_side_of_rayF (point_to_test_1 point_to_test_2
    line_start_point line_end_point : V3F) : Bool :=
  let boundary_vec := line_start_point.subtract line_end_point
  let point_1_vec := boundary_vec.cross (point_to_test_1.subtract line_end_point)
  let point_2_vec := boundary_vec.cross (point_to_test_2.subtract line_end_point)
  EF.gt (point_1_vec.dot point_2_vec) (.fin 0)

/-- Source: `Triangle::intersect`, in the `EF` model — the continuation
after `distance_along_ray` is computed: the behind-origin guard, the
bounding-box tests, the same-side tests, and the hit construction (the
plane normal is recomputed from the triangle, as in the source). -/
def Triangle.intersectF_rest (self : Triangle) (ray : Ray)
    (distance_along_ray : EF) : Option HitF :=
  let side1 := (self.p2.toF).subtract (self.p1.toF)
  let side2 := (self.p3.toF).subtract (self.p1.toF)
  let normal := side1.cross side2
  if EF.lt distance_along_ray (.fin 0) then none
  else
    let intersection := (ray.origin.toF).add ((ray.direction.toF).multiply distance_along_ray)
    if EF.lt intersection.x (.fin (min3 self.p1.x self.p2.x self.p3.x)) then none
    else if EF.gt intersection.x (.fin (max3 self.p1.x self.p2.x self.p3.x)) then none
    else if EF.lt intersection.y (.fin (min3 self.p1.y self.p2.y self.p3.y)) then none
    else if EF.gt intersection.y (.fin (max3 self.p1.y self.p2.y self.p3.y)) then none
    else if EF.lt intersection.z (.fin (min3 self.p1.z self.p2.z self.p3.z)) then none
    else if EF.gt intersection.z (.fin (max3 self.p1.z self.p2.z self.p3.z)) then none
    else if ! points_are_on_same_side_of_rayF intersection (self.p1.toF) (self.p2.toF) (self.p3.toF) then none
    else if ! points_are_on_same_side_of_rayF intersection (self.p2.toF) (self.p3.toF) (self.p1.toF) then none
    else if ! points_are_on_same_side_of_rayF intersection (self.p3.toF) (self.p1.toF) (self.p2.toF) then none
    else some ⟨intersection, self.color,
               (intersection.subtract (ray.origin.toF)).length, normal.normalize⟩

/-- Source: `Triangle::intersect`, in the `EF` model: the same computation
as `Triangle.intersect`, with every `f64` operation interpreted over `EF`,
so that the IEEE behaviour of the ray-plane division (`±inf`/`NaN` for a
zero denominator) is captured.  Triangle vertices and ray data are finite,
as in the source scene. -/
def Triangle.intersectF (self : Triangle) (ray : Ray) : Option HitF :=
  let side1 := (self.p2.toF).subtract (self.p1.toF)
  let side2 := (self.p3.toF).subtract (self.p1.toF)
  let normal := side1.cross side2
  let plane_k := (normal.multiply (.fin (-1))).dot (self.p1.toF)
  let a := normal.x
  let b := normal.y
  let c := normal.z
  let distance_along_ray :=
    EF.neg ((((((a.mul (.fin ray.origin.x)).add (b.mul (.fin ray.origin.y))).add
      (c.mul (.fin ray.origin.z))).add plane_k)).div
      (((a.mul (.fin ray.direction.x)).add (b.mul (.fin ray.direction.y))).add
        (c.mul (.fin ray.direction.z))))
  Triangle.intersectF_rest self ray distance_along_ray

/-- The Rust `as u8` saturating cast from `f64`, on the `EF` model:
`NaN` and everything below `0` go to `0`, everything above `255` goes to
`255`, in-range values are truncated toward zero.  Source: the
`color.r as u8` narrowing at the pixel write in `main`. -/
def f64_as_u8 : EF → ℤ
  | .nan => 0
  | .pinf => 255
  | .minf => 0
  | .fin v => max 0 (min 255 ⌊v⌋)

/-- The three channels written for one pixel, `Rgba([color.r as u8,
color.g as u8, color.b as u8, 0])` in `main`. -/
def pixel_channels (color : Color) : ℤ × ℤ × ℤ :=
  (f64_as_u8 (.fin color.r), f64_as_u8 (.fin color.g), f64_as_u8 (.fin color.b))

/-- The hit parameter as the claim describes it: the three-way minimum of
the two solutions of the quadratic `a t^2 + b t + c = 0` (that is,
`(-b ± sqrt disc) / (2 a)`) and `f64::MAX`.  This is a comparison
definition written from the spec's words, to be measured against the
code's `Sphere.intersect`. -/
def spec_sphere_t (s : Sphere) (ray : Ray) : ℝ :=
  min3 ((-(Sphere.qb s ray) + Real.sqrt (Sphere.discriminant s ray)) / (2 * Sphere.qa ray))
       ((-(Sphere.qb s ray) - Real.sqrt (Sphere.discriminant s ray)) / (2 * Sphere.qa ray))
       f64MAX

/-!  Helper lemmas. -/

/-- Square roots of perfect squares, used to evaluate the model on
concrete inputs. -/
theorem sqrt_eval (x r : ℝ) (hr : 0 ≤ r) (h : r * r = x) : Real.sqrt x = r := by
  rw [← h]; exact Real.sqrt_mul_self hr

/-- `Color::add` is associative. -/
theorem Color.add_assoc (a b c : Color) : (a.add b).add c = a.add (b.add c) := by
  simp only [Color.add, Color.mk.injEq]
  refine ⟨by ring, by ring, by ring⟩

/-- `Color::add` is commutative. -/
theorem Color.add_comm (a b : Color) : a.add b = b.add a := by
  simp only [Color.add, Color.mk.injEq]
  refine ⟨by ring, by ring, by ring⟩

/-- Black is a right unit for `Color::add`. -/
theorem Color.add_black (a : Color) : a.add COLOR_BLACK = a := by
  simp [Color.add, COLOR_BLACK]

/-- Black is a left unit for `Color::add`. -/
theorem Color.black_add (a : Color) : COLOR_BLACK.add a = a := by
  simp [Color.add, COLOR_BLACK]

/-- The running-total loop of `ColorMode::Light` equals the accumulator
plus the sum of the per-light contributions, taken over the scene's lights
in order. -/
theorem light_mode_loop_eq (hit : Hit) (objs : List Object) :
    ∀ acc : Color,
      light_mode_loop hit objs acc =
        acc.add (sum_colors ((scene_lights objs).map (light_contribution hit))) := by
  induction objs with
  | nil =>
    intro acc
    simp [light_mode_loop, scene_lights, sum_colors, Color.add_black]
  | cons obj rest ih =>
    intro acc
    cases obj with
    | SphereObject s =>
      simp only [light_mode_loop, scene_lights, List.filterMap_cons]
      exact ih acc
    | TriangleObject t =>
      simp only [light_mode_loop, scene_lights, List.filterMap_cons]
      exact ih acc
    | LightObject light_object =>
      simp only [light_mode_loop, scene_lights, List.filterMap_cons, List.map_cons,
        sum_colors, light_contribution]
      rw [ih]
      split_ifs with hs
      · simp only [Color.add_assoc, scene_lights]
      · simp only [Color.add_assoc, scene_lights]

/-- Summation of colours is invariant under permutation. -/
theorem sum_colors_perm {l1 l2 : List Color} (h : l1.Perm l2) :
    sum_colors l1 = sum_colors l2 := by
  induction h with
  | nil => rfl
  | cons x _ ih => simp [sum_colors, ih]
  | swap x y l =>
    simp only [sum_colors]
    rw [← Color.add_assoc, ← Color.add_assoc, Color.add_comm y x]
  | trans _ _ ih1 ih2 => rw [ih1, ih2]

/-- C5: in `Light` colour mode the computed colour before the fade is the
sum over all lights of the per-light contribution — the diffuse part
`light.diffuse * (DIFFUSE_CONSTANT * l_dot_n)` modulated by the material
colour via `relative_element_wise_multiply` (with `l_dot_n` unclamped)
plus, exactly when `r_dot_v > 0`, the specular part
`light.specular * (SPECULAR_CONSTANT * r_dot_v) ^ SHININESS_CONSTANT` —
with the ambient term `material_color * AMBIENT_CONSTANT` added exactly
once after all lights. -/
theorem C5_light_mode_is_sum_over_lights (hit : Hit) (scene : List Object) :
    computed_color ColorMode.Light hit scene =
      (sum_colors ((scene_lights scene).map (light_contribution hit))).add
        (hit.material_color.multiply AMBIENT_REFLECTION_CONSTANT) := by
  simp only [computed_color]
  rw [show (⟨0, 0, 0⟩ : Color) = COLOR_BLACK from rfl,
    light_mode_loop_eq hit scene COLOR_BLACK, Color.black_add]

/-- C6: for every colour mode, a hit with distance at most `FADE_START`
keeps the computed colour unchanged; past `FADE_START` the colour is
blended toward black by `lerp` with the clamped fade proportion; and at
distance exactly `FADE_END` the shaded colour is pure black. -/
theorem C6_distance_fade (mode : ColorMode) (hit : Hit) (scene : List Object) :
    (hit.distance ≤ FADE_DISTANCE_START →
      get_color_for_hitpoint mode hit scene = computed_color mode hit scene) ∧
    (hit.distance > FADE_DISTANCE_START →
      get_color_for_hitpoint mode hit scene =
        (computed_color mode hit scene).lerp COLOR_BLACK
          (clamp ((hit.distance - FADE_DISTANCE_START) /
            (FADE_DISTANCE_END - FADE_DISTANCE_START)) 0 1)) ∧
    (hit.distance = FADE_DISTANCE_END →
      get_color_for_hitpoint mode hit scene = COLOR_BLACK) := by
  refine ⟨?_, ?_, ?_⟩
  · intro hle
    rw [get_color_for_hitpoint, if_neg (by simpa using not_lt.mpr hle)]
  · intro hgt
    rw [get_color_for_hitpoint, if_pos hgt]
  · intro hend
    have hgt : hit.distance > FADE_DISTANCE_START := by
      rw [hend]; simp [FADE_DISTANCE_START, FADE_DISTANCE_END]; norm_num
    rw [get_color_for_hitpoint, if_pos hgt, hend]
    have hone : clamp ((FADE_DISTANCE_END - FADE_DISTANCE_START) /
        (FADE_DISTANCE_END - FADE_DISTANCE_START)) 0 1 = 1 := by
      simp [clamp, FADE_DISTANCE_START, FADE_DISTANCE_END]; norm_num
    rw [hone]
    simp [Color.lerp, Color.subtract, Color.multiply, Color.add, COLOR_BLACK]

/-- C6 witness: at distance `FADE_END` a static-colour hit fades to pure
black, and at distance `1` it is exactly the reference colour. -/
theorem C6_distance_fade_witness :
    get_color_for_hitpoint ColorMode.StaticColor
      ⟨⟨0, 0, 0⟩, COLOR_RED, 2000000, ⟨0, 0, 1⟩⟩ [] = COLOR_BLACK ∧
    get_color_for_hitpoint ColorMode.StaticColor
      ⟨⟨0, 0, 0⟩, COLOR_RED, 1, ⟨0, 0, 1⟩⟩ [] = COLOR_RED := by
  constructor
  · exact (C6_distance_fade ColorMode.StaticColor
      ⟨⟨0, 0, 0⟩, COLOR_RED, 2000000, ⟨0, 0, 1⟩⟩ []).2.2 (by norm_num [FADE_DISTANCE_END])
  · rw [(C6_distance_fade ColorMode.StaticColor
      ⟨⟨0, 0, 0⟩, COLOR_RED, 1, ⟨0, 0, 1⟩⟩ []).1 (by norm_num [FADE_DISTANCE_START])]
    rfl

/-- C10: the pixel write narrows each `f64` channel to 8 bits with
saturation — `NaN` and negative values map to `0`, values above `255` map
to `255`, in-range values are truncated (floored) — so the result always
lies in `[0, 255]` and never wraps. -/
theorem C10_pixel_saturating_cast :
    (∀ c : Color, pixel_channels c =
        (f64_as_u8 (.fin c.r), f64_as_u8 (.fin c.g), f64_as_u8 (.fin c.b))) ∧
    f64_as_u8 .nan = 0 ∧
    (∀ v : ℝ, v < 0 → f64_as_u8 (.fin v) = 0) ∧
    (∀ v : ℝ, 255 < v → f64_as_u8 (.fin v) = 255) ∧
    (∀ v : ℝ, 0 ≤ v → v ≤ 255 → f64_as_u8 (.fin v) = ⌊v⌋) ∧
    (∀ x : EF, 0 ≤ f64_as_u8 x ∧ f64_as_u8 x ≤ 255) := by
  refine ⟨fun c => rfl, rfl, ?_, ?_, ?_, ?_⟩
  · intro v hv
    have hfloor : ⌊v⌋ < 0 := by
      rw [Int.floor_lt]; exact_mod_cast hv
    simp only [f64_as_u8]
    omega
  · intro v hv
    have hfloor : (255 : ℤ) ≤ ⌊v⌋ := by
      rw [Int.le_floor]; exact_mod_cast hv.le
    simp only [f64_as_u8]
    omega
  · intro v h0 h255
    have h1 : (0 : ℤ) ≤ ⌊v⌋ := by
      rw [Int.le_floor]; exact_mod_cast h0
    have h2 : ⌊v⌋ ≤ 255 := by
      have := Int.floor_le_floor (α := ℝ) h255
      simpa using this
    simp only [f64_as_u8]
    omega
  · intro x
    cases x <;> simp only [f64_as_u8] <;> omega

/-- C10 witness: the cast at concrete out-of-range and in-range inputs. -/
theorem C10_pixel_saturating_cast_witness :
    f64_as_u8 (.fin (-1)) = 0 ∧ f64_as_u8 (.fin 300) = 255 ∧
      f64_as_u8 (.fin 200) = 200 := by
  refine ⟨C10_pixel_saturating_cast.2.2.1 (-1) (by norm_num),
          C10_pixel_saturating_cast.2.2.2.1 300 (by norm_num), ?_⟩
  rw [C10_pixel_saturating_cast.2.2.2.2.1 200 (by norm_num) (by norm_num)]
  norm_num

/-- Evaluation of `Sphere::intersect` on a unit sphere centred at
`(0,0,-3)` and the ray from the origin along `+z`: the sphere lies
entirely behind the ray origin (both quadratic roots are negative), yet
the code returns a hit at `(0,0,-4)`. -/
theorem sphere_behind_eval :
    Sphere.intersect ⟨⟨0, 0, -3⟩, 1, ⟨0, 255, 0⟩⟩ ⟨⟨0, 0, 0⟩, ⟨0, 0, 1⟩⟩ =
      some ⟨⟨0, 0, -4⟩, ⟨0, 255, 0⟩, 4, ⟨0, 0, -1⟩⟩ := by
  have h4 : Real.sqrt 4 = 2 := sqrt_eval 4 2 (by norm_num) (by norm_num)
  have h16 : Real.sqrt 16 = 4 := sqrt_eval 16 4 (by norm_num) (by norm_num)
  have h1 : Real.sqrt 1 = 1 := sqrt_eval 1 1 (by norm_num) (by norm_num)
  simp only [Sphere.intersect, Sphere.qa, Sphere.qb, Sphere.qc, Sphere.discriminant,
    V3.dot, V3.subtract, V3.add, V3.multiply, V3.length, V3.normalize, min3, f64MAX]
  norm_num [h4, h16, h1]

/-- C1 counterexample: for the ray from the origin along `+z` and the unit
sphere centred at `(0,0,-3)`, every point of the ray ahead of its origin
(parameter `t ≥ 0`) lies strictly outside the sphere — no valid
intersection exists ahead of the ray origin — yet `Sphere::intersect`
returns a hit, refuting the claim that it returns nothing in that case. -/
theorem C1_counterexample :
    (∀ t : ℝ, 0 ≤ t →
      ((V3.add ⟨0, 0, 0⟩ (V3.multiply ⟨0, 0, 1⟩ t)).subtract ⟨0, 0, -3⟩).length > 1) ∧
    (Sphere.intersect ⟨⟨0, 0, -3⟩, 1, ⟨0, 255, 0⟩⟩ ⟨⟨0, 0, 0⟩, ⟨0, 0, 1⟩⟩).isSome = true := by
  constructor
  · intro t ht
    simp only [V3.add, V3.multiply, V3.subtract, V3.length]
    rw [gt_iff_lt, Real.lt_sqrt (by norm_num)]
    nlinarith
  · rw [sphere_behind_eval]; rfl

/-- C1 (amended): `Triangle::intersect` returns no hit whenever its
intersection parameter lies behind the ray origin (`distance_along_ray`
negative); `Sphere::intersect` does not enforce this (see the
counterexample). -/
theorem C1_triangle_rejects_behind (tri : Triangle) (ray : Ray)
    (h : tri.distance_along_ray ray < 0) : tri.intersect ray = none := by
  simp only [Triangle.intersect]
  rw [if_pos h]

/-- C1 witness: a triangle in the plane `z = 1` and the ray from the
origin along `-z` meet at parameter `-1 < 0`, and the code returns no
hit. -/
theorem C1_triangle_rejects_behind_witness :
    Triangle.intersect ⟨⟨0, 0, 1⟩, ⟨1, 0, 1⟩, ⟨0, 1, 1⟩, ⟨0, 255, 0⟩⟩
      ⟨⟨0, 0, 0⟩, ⟨0, 0, -1⟩⟩ = none := by
  apply C1_triangle_rejects_behind
  simp only [Triangle.distance_along_ray, Triangle.normal, Triangle.plane_k,
    V3.cross, V3.subtract, V3.dot, V3.multiply]
  norm_num

/-- Lengths are square roots, hence nonnegative. -/
theorem V3.length_nonneg (v : V3) : 0 ≤ v.length := Real.sqrt_nonneg _

/-- A vector has length zero exactly when it is the zero vector. -/
theorem V3.length_eq_zero_iff (v : V3) : v.length = 0 ↔ v = ⟨0, 0, 0⟩ := by
  obtain ⟨x, y, z⟩ := v
  simp only [V3.length, Real.sqrt_eq_zero', V3.mk.injEq]
  constructor
  · intro h
    refine ⟨by nlinarith, by nlinarith, by nlinarith⟩
  · rintro ⟨rfl, rfl, rfl⟩
    norm_num

/-- `subtract` gives the zero vector exactly on equal vectors. -/
theorem V3.subtract_eq_zero_iff (a b : V3) : a.subtract b = ⟨0, 0, 0⟩ ↔ a = b := by
  obtain ⟨ax, ay, az⟩ := a
  obtain ⟨bx, by', bz⟩ := b
  simp [V3.subtract, V3.mk.injEq, sub_eq_zero]

/-- `normalize` produces a unit vector whenever the input has nonzero
length. -/
theorem V3.normalize_length (v : V3) (h : v.length ≠ 0) : v.normalize.length = 1 := by
  obtain ⟨x, y, z⟩ := v
  have hS : 0 ≤ x * x + y * y + z * z := by
    nlinarith [mul_self_nonneg x, mul_self_nonneg y, mul_self_nonneg z]
  have hS0 : x * x + y * y + z * z ≠ 0 := by
    intro h0
    exact h (by simp only [V3.length, h0, Real.sqrt_zero])
  simp only [V3.length, V3.normalize]
  rw [show x / Real.sqrt (x * x + y * y + z * z) * (x / Real.sqrt (x * x + y * y + z * z)) +
      y / Real.sqrt (x * x + y * y + z * z) * (y / Real.sqrt (x * x + y * y + z * z)) +
      z / Real.sqrt (x * x + y * y + z * z) * (z / Real.sqrt (x * x + y * y + z * z)) =
      (x * x + y * y + z * z) /
        (Real.sqrt (x * x + y * y + z * z) * Real.sqrt (x * x + y * y + z * z)) from by ring]
  rw [Real.mul_self_sqrt hS, div_self hS0, Real.sqrt_one]

set_option maxHeartbeats 1000000 in
/-- C9: every hit either primitive returns has `distance` equal to the
Euclidean length of `point - ray.origin` (hence nonnegative, even when
the selected parameter is negative), and — for nondegenerate data — a
unit-length surface normal. -/
theorem C9_hit_invariants :
    (∀ (s : Sphere) (ray : Ray) (h : Hit), Sphere.intersect s ray = some h →
      h.distance = (h.point.subtract ray.origin).length ∧ 0 ≤ h.distance ∧
        (h.point ≠ s.center → h.surface_normal.length = 1)) ∧
    (∀ (tri : Triangle) (ray : Ray) (h : Hit), Triangle.intersect tri ray = some h →
      h.distance = (h.point.subtract ray.origin).length ∧ 0 ≤ h.distance ∧
        (tri.normal ≠ ⟨0, 0, 0⟩ → h.surface_normal.length = 1)) := by
  constructor
  · intro s ray h heq
    simp only [Sphere.intersect] at heq
    split_ifs at heq
    injection heq with heq'
    subst heq'
    refine ⟨rfl, Real.sqrt_nonneg _, fun hne => ?_⟩
    apply V3.normalize_length
    intro hlen
    exact hne ((V3.subtract_eq_zero_iff _ _).mp ((V3.length_eq_zero_iff _).mp hlen))
  · intro tri ray h heq
    simp only [Triangle.intersect] at heq
    split_ifs at heq
    injection heq with heq'
    subst heq'
    refine ⟨rfl, Real.sqrt_nonneg _, fun hne => ?_⟩
    apply V3.normalize_length
    intro hlen
    exact hne ((V3.length_eq_zero_iff _).mp hlen)

/-- Evaluation of `Triangle::intersect` on a triangle in the plane
`z = 2` containing the point `(0,0,2)`, for the ray from the origin
along `+z`. -/
theorem triangle_front_eval :
    Triangle.intersect ⟨⟨-1, -1, 2⟩, ⟨2, -1, 2⟩, ⟨-1, 2, 2⟩, ⟨0, 255, 0⟩⟩
      ⟨⟨0, 0, 0⟩, ⟨0, 0, 1⟩⟩ = some ⟨⟨0, 0, 2⟩, ⟨0, 255, 0⟩, 2, ⟨0, 0, 1⟩⟩ := by
  have h4 : Real.sqrt 4 = 2 := sqrt_eval 4 2 (by norm_num) (by norm_num)
  have h81 : Real.sqrt 81 = 9 := sqrt_eval 81 9 (by norm_num) (by norm_num)
  simp only [Triangle.intersect, Triangle.normal, Triangle.plane_k,
    Triangle.distance_along_ray, points_are_on_same_side_of_ray,
    V3.cross, V3.subtract, V3.dot, V3.add, V3.multiply, V3.length, V3.normalize,
    min3, max3]
  norm_num [h4, h81]

/-- C9 witness: the invariants instantiated on the behind-origin sphere
hit (distance `4`, normal `(0,0,-1)`) and on a concrete triangle hit
(distance `2`, normal `(0,0,1)`). -/
theorem C9_hit_invariants_witness :
    ((4 : ℝ) = ((V3.mk 0 0 (-4)).subtract ⟨0, 0, 0⟩).length ∧
      (V3.mk 0 0 (-1)).length = 1) ∧
    ((2 : ℝ) = ((V3.mk 0 0 2).subtract ⟨0, 0, 0⟩).length ∧
      (V3.mk 0 0 1).length = 1) := by
  constructor
  · have h := C9_hit_invariants.1 ⟨⟨0, 0, -3⟩, 1, ⟨0, 255, 0⟩⟩ ⟨⟨0, 0, 0⟩, ⟨0, 0, 1⟩⟩
      ⟨⟨0, 0, -4⟩, ⟨0, 255, 0⟩, 4, ⟨0, 0, -1⟩⟩ sphere_behind_eval
    refine ⟨h.1, h.2.2 ?_⟩
    intro hc
    simp only [V3.mk.injEq] at hc
    norm_num at hc
  · have h := C9_hit_invariants.2 ⟨⟨-1, -1, 2⟩, ⟨2, -1, 2⟩, ⟨-1, 2, 2⟩, ⟨0, 255, 0⟩⟩
      ⟨⟨0, 0, 0⟩, ⟨0, 0, 1⟩⟩ ⟨⟨0, 0, 2⟩, ⟨0, 255, 0⟩, 2, ⟨0, 0, 1⟩⟩ triangle_front_eval
    refine ⟨h.1, h.2.2 ?_⟩
    intro hc
    simp only [Triangle.normal, V3.cross, V3.subtract, V3.mk.injEq] at hc
    norm_num at hc

/-- C2 (amended): `Sphere::intersect` misses exactly when the discriminant
`b^2 - 4ac` is negative; otherwise it hits at the parameter
`min(t1, t2, f64::MAX)` where `t1, t2` are the code's values
`((-b ± sqrt disc) / 2) * a` — which agree with the quadratic's solutions
only when `a = 1` — and the hit point is `origin + direction * t`. -/
theorem C2_sphere_quadratic (s : Sphere) (ray : Ray) :
    (Sphere.intersect s ray = none ↔ Sphere.discriminant s ray < 0) ∧
    (0 ≤ Sphere.discriminant s ray → ∃ h : Hit, Sphere.intersect s ray = some h ∧
      h.point = ray.origin.add (ray.direction.multiply
        (min3 ((-Sphere.qb s ray + Real.sqrt (Sphere.discriminant s ray)) / 2 * Sphere.qa ray)
              ((-Sphere.qb s ray - Real.sqrt (Sphere.discriminant s ray)) / 2 * Sphere.qa ray)
              f64MAX))) := by
  constructor
  · constructor
    · intro hnone
      by_contra hd
      push_neg at hd
      simp only [Sphere.intersect] at hnone
      rw [if_neg (not_lt.mpr hd)] at hnone
      exact Option.noConfusion hnone
    · intro hd
      simp only [Sphere.intersect]
      rw [if_pos hd]
  · intro hd
    simp only [Sphere.intersect]
    rw [if_neg (not_lt.mpr hd)]
    exact ⟨_, rfl, rfl⟩

/-- C2 counterexample: for the non-unit direction `(0,0,2)` (so `a = 4`)
and the sphere of radius `3` at `(0,0,5)`, the code hits at `(0,0,32)`,
while the three-way minimum over the true quadratic solutions
(`spec_sphere_t`, here `min(4, 1, MAX) = 1`) would give `(0,0,2)`:
the claim's description of `t1`, `t2` as the quadratic's solutions fails. -/
theorem C2_counterexample :
    Sphere.intersect ⟨⟨0, 0, 5⟩, 3, ⟨0, 255, 0⟩⟩ ⟨⟨0, 0, 0⟩, ⟨0, 0, 2⟩⟩ =
      some ⟨⟨0, 0, 32⟩, ⟨0, 255, 0⟩, 32, ⟨0, 0, 1⟩⟩ ∧
    V3.mk 0 0 32 ≠
      (V3.mk 0 0 0).add ((V3.mk 0 0 2).multiply
        (spec_sphere_t ⟨⟨0, 0, 5⟩, 3, ⟨0, 255, 0⟩⟩ ⟨⟨0, 0, 0⟩, ⟨0, 0, 2⟩⟩)) := by
  have h144 : Real.sqrt 144 = 12 := sqrt_eval 144 12 (by norm_num) (by norm_num)
  have h1024 : Real.sqrt 1024 = 32 := sqrt_eval 1024 32 (by norm_num) (by norm_num)
  have h729 : Real.sqrt 729 = 27 := sqrt_eval 729 27 (by norm_num) (by norm_num)
  constructor
  · simp only [Sphere.intersect, Sphere.qa, Sphere.qb, Sphere.qc, Sphere.discriminant,
      V3.dot, V3.subtract, V3.add, V3.multiply, V3.length, V3.normalize, min3, f64MAX]
    norm_num [h144, h1024, h729]
  · simp only [spec_sphere_t, Sphere.qa, Sphere.qb, Sphere.qc, Sphere.discriminant,
      V3.dot, V3.subtract, V3.add, V3.multiply, min3, f64MAX]
    norm_num [h144, V3.mk.injEq]

/-- C2 witness: on a unit-`a` ray the amended formula evaluates to the hit
point `(0,0,4)` for the unit sphere at `(0,0,5)`. -/
theorem C2_sphere_quadratic_witness :
    ∃ h : Hit, Sphere.intersect ⟨⟨0, 0, 5⟩, 1, ⟨0, 255, 0⟩⟩ ⟨⟨0, 0, 0⟩, ⟨0, 0, 1⟩⟩ = some h ∧
      h.point = V3.mk 0 0 4 := by
  have h4 : Real.sqrt 4 = 2 := sqrt_eval 4 2 (by norm_num) (by norm_num)
  obtain ⟨h, hint, hpt⟩ :=
    (C2_sphere_quadratic ⟨⟨0, 0, 5⟩, 1, ⟨0, 255, 0⟩⟩ ⟨⟨0, 0, 0⟩, ⟨0, 0, 1⟩⟩).2
      (by norm_num [Sphere.discriminant, Sphere.qa, Sphere.qb, Sphere.qc,
        V3.dot, V3.subtract])
  refine ⟨h, hint, ?_⟩
  rw [hpt]
  simp only [Sphere.qa, Sphere.qb, Sphere.qc, Sphere.discriminant,
    V3.dot, V3.subtract, V3.add, V3.multiply, min3, f64MAX]
  norm_num [h4]

/-- The closest-hit fold from any initial state: the tracked distance never
increases and ends at most every produced hit's distance; and either the
state is returned unchanged, or the fold returns some produced hit whose
distance is the tracked distance, strictly below the initial one. -/
theorem closest_fold_spec (ray : Ray) :
    ∀ (scene : List Object) (d : ℝ) (cur : Option Hit),
      ((scene.foldl (closest_step ray) (d, cur)).1 ≤ d ∧
        ∀ h ∈ scene_hits scene ray, (scene.foldl (closest_step ray) (d, cur)).1 ≤ h.distance) ∧
      (scene.foldl (closest_step ray) (d, cur) = (d, cur) ∨
        ∃ h ∈ scene_hits scene ray,
          (scene.foldl (closest_step ray) (d, cur)).2 = some h ∧
          (scene.foldl (closest_step ray) (d, cur)).1 = h.distance ∧
          (scene.foldl (closest_step ray) (d, cur)).1 < d) := by
  intro scene
  induction scene with
  | nil =>
    intro d cur
    refine ⟨⟨le_refl d, ?_⟩, Or.inl rfl⟩
    intro h hm
    simp [scene_hits] at hm
  | cons obj rest ih =>
    intro d cur
    rcases hobj : intersect_object obj ray with _ | hit
    · have hstep : closest_step ray (d, cur) obj = (d, cur) := by
        simp [closest_step, hobj]
      have hh : scene_hits (obj :: rest) ray = scene_hits rest ray := by
        simp [scene_hits, List.filterMap_cons, hobj]
      simp only [List.foldl_cons, hstep, hh]
      exact ih d cur
    · have hh : scene_hits (obj :: rest) ray = hit :: scene_hits rest ray := by
        simp [scene_hits, List.filterMap_cons, hobj]
      by_cases hlt : hit.distance < d
      · have hstep : closest_step ray (d, cur) obj = (hit.distance, some hit) := by
          simp [closest_step, hobj, hlt]
        simp only [List.foldl_cons, hstep, hh]
        obtain ⟨⟨h1, h2⟩, h3⟩ := ih hit.distance (some hit)
        refine ⟨⟨h1.trans hlt.le, ?_⟩, ?_⟩
        · intro h hm
          rcases List.mem_cons.mp hm with rfl | hm'
          · exact h1
          · exact h2 h hm'
        · rcases h3 with heq | ⟨h, hm', hsnd, hfst, hlt'⟩
          · refine Or.inr ⟨hit, List.mem_cons_self _ _, ?_, ?_, ?_⟩
            · rw [heq]
            · rw [heq]
            · rw [heq]; exact hlt
          · exact Or.inr ⟨h, List.mem_cons_of_mem _ hm', hsnd, hfst, hlt'.trans hlt⟩
      · have hstep : closest_step ray (d, cur) obj = (d, cur) := by
          simp [closest_step, hobj, hlt]
        simp only [List.foldl_cons, hstep, hh]
        obtain ⟨⟨h1, h2⟩, h3⟩ := ih d cur
        refine ⟨⟨h1, ?_⟩, ?_⟩
        · intro h hm
          rcases List.mem_cons.mp hm with rfl | hm'
          · exact h1.trans (not_lt.mp hlt)
          · exact h2 h hm'
        · rcases h3 with heq | ⟨h, hm', hsnd, hfst, hlt'⟩
          · exact Or.inl heq
          · exact Or.inr ⟨h, List.mem_cons_of_mem _ hm', hsnd, hfst, hlt'⟩

/-- C4 (amended): a `Light` never itself produces a hit, and whenever no
object of the scene yields a hit, `send_ray` returns the background colour
black; in particular a scene of only `Light`s is black for every ray.
(The converse — black only when nothing is hit — fails, see the
counterexample.) -/
theorem C4_background_black :
    (∀ (l : Light) (ray : Ray), intersect_object (Object.LightObject l) ray = none) ∧
    (∀ (scene : List Object) (ray : Ray),
      (∀ obj ∈ scene, intersect_object obj ray = none) →
        send_ray scene ray = COLOR_BLACK) ∧
    (∀ (scene : List Object) (ray : Ray),
      (∀ obj ∈ scene, ∃ l, obj = Object.LightObject l) →
        send_ray scene ray = COLOR_BLACK) := by
  have hmain : ∀ (scene : List Object) (ray : Ray),
      (∀ obj ∈ scene, intersect_object obj ray = none) →
        send_ray scene ray = COLOR_BLACK := by
    intro scene ray hnone
    have hempty : scene_hits scene ray = [] := by
      simp only [scene_hits, List.filterMap_eq_nil_iff]
      exact hnone
    rcases (closest_fold_spec ray scene f64MAX none).2 with heq |
      ⟨h, hm, _, _, _⟩
    · simp only [send_ray, send_ray_fold, heq]
    · rw [hempty] at hm
      simp at hm
  refine ⟨fun l ray => rfl, hmain, ?_⟩
  intro scene ray hlights
  apply hmain
  intro obj hm
  obtain ⟨l, rfl⟩ := hlights obj hm
  rfl

/-- C4 witness: a scene consisting of a single light is black for a
concrete ray. -/
theorem C4_background_black_witness :
    send_ray [Object.LightObject ⟨⟨-100, -100, 0⟩, ⟨255, 255, 255⟩, ⟨255, 255, 255⟩⟩]
      ⟨⟨0, 0, 0⟩, ⟨0, 0, 1⟩⟩ = COLOR_BLACK := by
  apply C4_background_black.2.2
  intro obj hm
  rw [List.mem_singleton] at hm
  exact ⟨_, hm⟩

/-- Evaluation of `Sphere::intersect` on a unit sphere at `(0,0,5)` of any
colour, for the ray from the origin along `+z`. -/
theorem sphere5_eval (col : Color) :
    Sphere.intersect ⟨⟨0, 0, 5⟩, 1, col⟩ ⟨⟨0, 0, 0⟩, ⟨0, 0, 1⟩⟩ =
      some ⟨⟨0, 0, 4⟩, col, 4, ⟨0, 0, -1⟩⟩ := by
  have h4 : Real.sqrt 4 = 2 := sqrt_eval 4 2 (by norm_num) (by norm_num)
  have h16 : Real.sqrt 16 = 4 := sqrt_eval 16 4 (by norm_num) (by norm_num)
  have h1 : Real.sqrt 1 = 1 := sqrt_eval 1 1 (by norm_num) (by norm_num)
  simp only [Sphere.intersect, Sphere.qa, Sphere.qb, Sphere.qc, Sphere.discriminant,
    V3.dot, V3.subtract, V3.add, V3.multiply, V3.length, V3.normalize, min3, f64MAX]
  norm_num [h4, h16, h1]

/-- C4 counterexample: a scene with a single black sphere hit by the ray
shades to black even though an object yields a hit — `send_ray` does not
return black "exactly when" nothing is hit. -/
theorem C4_counterexample :
    send_ray [Object.SphereObject ⟨⟨0, 0, 5⟩, 1, ⟨0, 0, 0⟩⟩] ⟨⟨0, 0, 0⟩, ⟨0, 0, 1⟩⟩ =
      COLOR_BLACK ∧
    (intersect_object (Object.SphereObject ⟨⟨0, 0, 5⟩, 1, ⟨0, 0, 0⟩⟩)
      ⟨⟨0, 0, 0⟩, ⟨0, 0, 1⟩⟩).isSome = true := by
  have hio : intersect_object (Object.SphereObject ⟨⟨0, 0, 5⟩, 1, ⟨0, 0, 0⟩⟩)
      ⟨⟨0, 0, 0⟩, ⟨0, 0, 1⟩⟩ = some ⟨⟨0, 0, 4⟩, ⟨0, 0, 0⟩, 4, ⟨0, 0, -1⟩⟩ := by
    simp [intersect_object, sphere5_eval]
  constructor
  · have hfold : send_ray_fold [Object.SphereObject ⟨⟨0, 0, 5⟩, 1, ⟨0, 0, 0⟩⟩]
        ⟨⟨0, 0, 0⟩, ⟨0, 0, 1⟩⟩ = (4, some ⟨⟨0, 0, 4⟩, ⟨0, 0, 0⟩, 4, ⟨0, 0, -1⟩⟩) := by
      simp only [send_ray_fold, List.foldl_cons, List.foldl_nil, closest_step, hio]
      rw [if_pos (by norm_num [f64MAX])]
    simp only [send_ray, hfold]
    simp only [get_color_for_hitpoint, computed_color, COLOR_MODE, light_mode_loop]
    rw [if_neg (by norm_num [FADE_DISTANCE_START])]
    simp [Color.add, Color.multiply, COLOR_BLACK]
  · rw [hio]; rfl

/-- The closest-hit selection returns nothing exactly when no produced hit
has distance strictly below the initial `f64::MAX`. -/
theorem closest_none_iff (scene : List Object) (ray : Ray) :
    (send_ray_fold scene ray).2 = none ↔
      ∀ h ∈ scene_hits scene ray, ¬ h.distance < f64MAX := by
  constructor
  · intro hnone h hm
    rcases (closest_fold_spec ray scene f64MAX none).2 with heq | ⟨h0, _, hsnd, _, _⟩
    · have h1 := (closest_fold_spec ray scene f64MAX none).1.2 h hm
      rw [show (scene.foldl (closest_step ray) (f64MAX, none)).1 = f64MAX from by rw [heq]] at h1
      exact not_lt.mpr h1
    · rw [show (send_ray_fold scene ray).2 =
        (scene.foldl (closest_step ray) (f64MAX, none)).2 from rfl, hsnd] at hnone
      exact Option.noConfusion hnone
  · intro hall
    rcases (closest_fold_spec ray scene f64MAX none).2 with heq | ⟨h0, hm0, _, hfst, hlt⟩
    · rw [show (send_ray_fold scene ray).2 =
        (scene.foldl (closest_step ray) (f64MAX, none)).2 from rfl, heq]
    · exact absurd (hfst ▸ hlt) (hall h0 hm0)

/-- When all produced hits have pairwise distinct distances, the
closest-hit selection returns `h` exactly when `h` is a produced hit with
distance below `f64::MAX` that is strictly closer than every other
produced hit.  The right-hand side only mentions list membership, so it is
invariant under scene permutation. -/
theorem closest_unique_iff (scene : List Object) (ray : Ray)
    (hU : (scene_hits scene ray).Pairwise (fun a b => a.distance ≠ b.distance))
    (h : Hit) :
    (send_ray_fold scene ray).2 = some h ↔
      (h ∈ scene_hits scene ray ∧ h.distance < f64MAX ∧
        ∀ h' ∈ scene_hits scene ray, h' ≠ h → h.distance < h'.distance) := by
  have hspec := closest_fold_spec ray scene f64MAX none
  constructor
  · intro hsome
    rcases hspec.2 with heq | ⟨h0, hm0, hsnd, hfst, hlt⟩
    · rw [show (send_ray_fold scene ray).2 =
        (scene.foldl (closest_step ray) (f64MAX, none)).2 from rfl, heq] at hsome
      exact Option.noConfusion hsome
    · rw [show (send_ray_fold scene ray).2 =
        (scene.foldl (closest_step ray) (f64MAX, none)).2 from rfl, hsnd] at hsome
      injection hsome with hsome'
      subst hsome'
      refine ⟨hm0, hfst ▸ hlt, ?_⟩
      intro h' hm' hne
      have hle := hspec.1.2 h' hm'
      rw [hfst] at hle
      have hneq : h0.distance ≠ h'.distance :=
        hU.forall (fun a b hab => Ne.symm hab) hm0 hm' (Ne.symm hne)
      exact lt_of_le_of_ne hle hneq
  · rintro ⟨hm, hmax, hmin⟩
    rcases hspec.2 with heq | ⟨h0, hm0, hsnd, hfst, _⟩
    · exfalso
      have h1 := hspec.1.2 h hm
      rw [show (scene.foldl (closest_step ray) (f64MAX, none)).1 = f64MAX from by
        rw [heq]] at h1
      exact absurd hmax (not_lt.mpr h1)
    · have hh0 : h0 = h := by
        by_contra hne
        have hlt' := hmin h0 hm0 hne
        have hle := hspec.1.2 h hm
        rw [hfst] at hle
        exact absurd (lt_of_le_of_lt hle hlt') (lt_irrefl _)
      rw [show (send_ray_fold scene ray).2 =
        (scene.foldl (closest_step ray) (f64MAX, none)).2 from rfl, hsnd, hh0]

/-- Shading a fixed hit is invariant under permutation of the scene: the
light loop is a sum over the scene's lights, and colour addition is
commutative and associative. -/
theorem get_color_perm (mode : ColorMode) (hit : Hit) {s1 s2 : List Object}
    (hperm : s1.Perm s2) :
    get_color_for_hitpoint mode hit s1 = get_color_for_hitpoint mode hit s2 := by
  have hcomputed : computed_color mode hit s1 = computed_color mode hit s2 := by
    cases mode with
    | StaticColor => rfl
    | Normals => rfl
    | Light =>
      simp only [computed_color]
      rw [show (⟨0, 0, 0⟩ : Color) = COLOR_BLACK from rfl,
        light_mode_loop_eq hit s1 COLOR_BLACK, light_mode_loop_eq hit s2 COLOR_BLACK]
      have : sum_colors ((scene_lights s1).map (light_contribution hit)) =
          sum_colors ((scene_lights s2).map (light_contribution hit)) :=
        sum_colors_perm ((hperm.filterMap _).map _)
      rw [this]
  simp only [get_color_for_hitpoint, hcomputed]

/-- C3 (amended): the hit `send_ray` shades always has minimal distance
among all hits the scene's objects produce (on ties the earliest object in
iteration order wins), and the resulting colour is unchanged under any
permutation of the scene's object order provided no two produced hits
share a distance (ties break permutation invariance, see the
counterexample). -/
theorem C3_closest_hit_permutation :
    (∀ (scene : List Object) (ray : Ray) (h : Hit),
      (send_ray_fold scene ray).2 = some h →
        h ∈ scene_hits scene ray ∧
          ∀ h' ∈ scene_hits scene ray, h.distance ≤ h'.distance) ∧
    (∀ (s1 s2 : List Object) (ray : Ray), s1.Perm s2 →
      (scene_hits s1 ray).Pairwise (fun a b => a.distance ≠ b.distance) →
      send_ray s1 ray = send_ray s2 ray) := by
  constructor
  · intro scene ray h hsome
    have hspec := closest_fold_spec ray scene f64MAX none
    rcases hspec.2 with heq | ⟨h0, hm0, hsnd, hfst, _⟩
    · rw [show (send_ray_fold scene ray).2 =
        (scene.foldl (closest_step ray) (f64MAX, none)).2 from rfl, heq] at hsome
      exact Option.noConfusion hsome
    · rw [show (send_ray_fold scene ray).2 =
        (scene.foldl (closest_step ray) (f64MAX, none)).2 from rfl, hsnd] at hsome
      injection hsome with hsome'
      subst hsome'
      refine ⟨hm0, ?_⟩
      intro h' hm'
      have := hspec.1.2 h' hm'
      rwa [hfst] at this
  · intro s1 s2 ray hperm hU
    have hhits : (scene_hits s1 ray).Perm (scene_hits s2 ray) := hperm.filterMap _
    have hU2 : (scene_hits s2 ray).Pairwise (fun a b => a.distance ≠ b.distance) :=
      (hhits.pairwise_iff (fun hab => Ne.symm hab)).mp hU
    rcases hcase : (send_ray_fold s1 ray).2 with _ | h
    · have hnone2 : (send_ray_fold s2 ray).2 = none := by
        rw [closest_none_iff]
        intro h hm
        exact (closest_none_iff s1 ray).mp hcase h (hhits.mem_iff.mpr hm)
      simp only [send_ray, hcase, hnone2]
    · have hchar := (closest_unique_iff s1 ray hU h).mp hcase
      have hsome2 : (send_ray_fold s2 ray).2 = some h := by
        rw [closest_unique_iff s2 ray hU2 h]
        refine ⟨hhits.mem_iff.mp hchar.1, hchar.2.1, ?_⟩
        intro h' hm' hne
        exact hchar.2.2 h' (hhits.mem_iff.mpr hm') hne
      simp only [send_ray, hcase, hsome2]
      exact get_color_perm COLOR_MODE h hperm

/-- Evaluation of `Sphere::intersect` on a unit sphere at `(0,0,9)` of any
colour, for the ray from the origin along `+z`. -/
theorem sphere9_eval (col : Color) :
    Sphere.intersect ⟨⟨0, 0, 9⟩, 1, col⟩ ⟨⟨0, 0, 0⟩, ⟨0, 0, 1⟩⟩ =
      some ⟨⟨0, 0, 8⟩, col, 8, ⟨0, 0, -1⟩⟩ := by
  have h4 : Real.sqrt 4 = 2 := sqrt_eval 4 2 (by norm_num) (by norm_num)
  have h64 : Real.sqrt 64 = 8 := sqrt_eval 64 8 (by norm_num) (by norm_num)
  have h1 : Real.sqrt 1 = 1 := sqrt_eval 1 1 (by norm_num) (by norm_num)
  simp only [Sphere.intersect, Sphere.qa, Sphere.qb, Sphere.qc, Sphere.discriminant,
    V3.dot, V3.subtract, V3.add, V3.multiply, V3.length, V3.normalize, min3, f64MAX]
  norm_num [h4, h64, h1]

/-- C3 witness: two spheres at distances `4` and `8` (distinct), swapped;
`send_ray` gives the same colour. -/
theorem C3_closest_hit_permutation_witness :
    send_ray [Object.SphereObject ⟨⟨0, 0, 5⟩, 1, ⟨0, 0, 0⟩⟩,
              Object.SphereObject ⟨⟨0, 0, 9⟩, 1, ⟨0, 0, 0⟩⟩] ⟨⟨0, 0, 0⟩, ⟨0, 0, 1⟩⟩ =
    send_ray [Object.SphereObject ⟨⟨0, 0, 9⟩, 1, ⟨0, 0, 0⟩⟩,
              Object.SphereObject ⟨⟨0, 0, 5⟩, 1, ⟨0, 0, 0⟩⟩] ⟨⟨0, 0, 0⟩, ⟨0, 0, 1⟩⟩ := by
  apply C3_closest_hit_permutation.2
  · exact List.Perm.swap _ _ _
  · simp only [scene_hits, List.filterMap_cons, List.filterMap_nil, intersect_object,
      sphere5_eval, sphere9_eval]
    simp only [List.pairwise_cons, List.mem_singleton, List.mem_cons, List.not_mem_nil]
    refine ⟨?_, by simp⟩
    intro h' hm
    simp only [List.mem_cons, List.not_mem_nil, or_false] at hm
    subst hm
    norm_num

/-- C3 counterexample: two coincident unit spheres with different colours
produce hits at the same distance `4`; the first in scene order wins, so
swapping the scene order (a permutation) changes the resulting colour. -/
theorem C3_counterexample :
    ([Object.SphereObject ⟨⟨0, 0, 5⟩, 1, ⟨255, 0, 0⟩⟩,
      Object.SphereObject ⟨⟨0, 0, 5⟩, 1, ⟨0, 255, 0⟩⟩] : List Object).Perm
      [Object.SphereObject ⟨⟨0, 0, 5⟩, 1, ⟨0, 255, 0⟩⟩,
       Object.SphereObject ⟨⟨0, 0, 5⟩, 1, ⟨255, 0, 0⟩⟩] ∧
    send_ray [Object.SphereObject ⟨⟨0, 0, 5⟩, 1, ⟨255, 0, 0⟩⟩,
              Object.SphereObject ⟨⟨0, 0, 5⟩, 1, ⟨0, 255, 0⟩⟩] ⟨⟨0, 0, 0⟩, ⟨0, 0, 1⟩⟩ ≠
    send_ray [Object.SphereObject ⟨⟨0, 0, 5⟩, 1, ⟨0, 255, 0⟩⟩,
              Object.SphereObject ⟨⟨0, 0, 5⟩, 1, ⟨255, 0, 0⟩⟩] ⟨⟨0, 0, 0⟩, ⟨0, 0, 1⟩⟩ := by
  constructor
  · exact List.Perm.swap _ _ _
  · have hfold1 : send_ray_fold [Object.SphereObject ⟨⟨0, 0, 5⟩, 1, ⟨255, 0, 0⟩⟩,
        Object.SphereObject ⟨⟨0, 0, 5⟩, 1, ⟨0, 255, 0⟩⟩] ⟨⟨0, 0, 0⟩, ⟨0, 0, 1⟩⟩ =
        (4, some ⟨⟨0, 0, 4⟩, ⟨255, 0, 0⟩, 4, ⟨0, 0, -1⟩⟩) := by
      simp only [send_ray_fold, List.foldl_cons, List.foldl_nil, closest_step,
        intersect_object, sphere5_eval]
      norm_num [f64MAX]
    have hfold2 : send_ray_fold [Object.SphereObject ⟨⟨0, 0, 5⟩, 1, ⟨0, 255, 0⟩⟩,
        Object.SphereObject ⟨⟨0, 0, 5⟩, 1, ⟨255, 0, 0⟩⟩] ⟨⟨0, 0, 0⟩, ⟨0, 0, 1⟩⟩ =
        (4, some ⟨⟨0, 0, 4⟩, ⟨0, 255, 0⟩, 4, ⟨0, 0, -1⟩⟩) := by
      simp only [send_ray_fold, List.foldl_cons, List.foldl_nil, closest_step,
        intersect_object, sphere5_eval]
      norm_num [f64MAX]
    simp only [send_ray, hfold1, hfold2, get_color_for_hitpoint, computed_color,
      COLOR_MODE, light_mode_loop]
    rw [if_neg (by norm_num [FADE_DISTANCE_START]), if_neg (by norm_num [FADE_DISTANCE_START])]
    simp only [Color.add, Color.multiply, AMBIENT_REFLECTION_CONSTANT, Color.mk.injEq]
    norm_num

/-- Adding then subtracting the same vector is the identity. -/
theorem V3.add_sub_cancel (a w : V3) : (a.add w).subtract a = w := by
  obtain ⟨ax, ay, az⟩ := a
  obtain ⟨wx, wy, wz⟩ := w
  simp only [V3.add, V3.subtract, V3.mk.injEq]
  refine ⟨by ring, by ring, by ring⟩

/-- The length of a scaled vector is the absolute scale times the length. -/
theorem V3.length_multiply (v : V3) (k : ℝ) :
    (v.multiply k).length = |k| * v.length := by
  obtain ⟨x, y, z⟩ := v
  simp only [V3.multiply, V3.length]
  rw [show x * k * (x * k) + y * k * (y * k) + z * k * (z * k) =
      (k * k) * (x * x + y * y + z * z) from by ring]
  rw [Real.sqrt_mul (mul_self_nonneg k), Real.sqrt_mul_self_eq_abs]

/-- Normalizing is invariant under scaling by a positive factor. -/
theorem V3.normalize_multiply_pos (v : V3) {k : ℝ} (hk : 0 < k) :
    (v.multiply k).normalize = v.normalize := by
  obtain ⟨x, y, z⟩ := v
  have hmul := V3.length_multiply ⟨x, y, z⟩ k
  simp only [V3.normalize, V3.multiply] at hmul ⊢
  rw [hmul, abs_of_pos hk]
  by_cases hL : V3.length ⟨x, y, z⟩ = 0
  · rw [hL]
    simp
  · simp only [V3.mk.injEq]
    refine ⟨?_, ?_, ?_⟩ <;>
      · rw [mul_comm _ k]
        exact mul_div_mul_left _ _ (ne_of_gt hk)

set_option maxHeartbeats 1000000 in
/-- C7: for a ray whose origin lies at distance `d > r` from the sphere's
centre, aimed directly at the centre (unit direction), `Sphere::intersect`
reports a hit at distance `d - r` whose surface normal is the ray
direction scaled by `-1` (antiparallel, hence parallel). -/
theorem C7_head_on_hit (s : Sphere) (origin : V3) (d : ℝ)
    (hr : 0 < s.radius) (hd : s.radius < d)
    (hlen : (origin.subtract s.center).length = d)
    (hmax : d - s.radius < f64MAX) :
    ∃ h : Hit,
      Sphere.intersect s ⟨origin, (s.center.subtract origin).normalize⟩ = some h ∧
        h.distance = d - s.radius ∧
        h.surface_normal = ((s.center.subtract origin).normalize).multiply (-1) := by
  obtain ⟨⟨cx, cy, cz⟩, r, col⟩ := s
  obtain ⟨ox, oy, oz⟩ := origin
  simp only at hr hd hmax
  have hd0 : (0 : ℝ) < d := lt_trans hr hd
  have hdne : d ≠ 0 := ne_of_gt hd0
  simp only [V3.subtract, V3.length] at hlen
  have hSnn : 0 ≤ (ox - cx) * (ox - cx) + (oy - cy) * (oy - cy) + (oz - cz) * (oz - cz) := by
    nlinarith [mul_self_nonneg (ox - cx), mul_self_nonneg (oy - cy), mul_self_nonneg (oz - cz)]
  have hS : (ox - cx) * (ox - cx) + (oy - cy) * (oy - cy) + (oz - cz) * (oz - cz) = d * d := by
    rw [← hlen]
    exact (Real.mul_self_sqrt hSnn).symm
  have hLrev : ((⟨cx, cy, cz⟩ : V3).subtract ⟨ox, oy, oz⟩).length = d := by
    simp only [V3.subtract, V3.length]
    rw [show (cx - ox) * (cx - ox) + (cy - oy) * (cy - oy) + (cz - oz) * (cz - oz) = d * d from
      by linear_combination hS]
    exact Real.sqrt_mul_self hd0.le
  have hdir : ((⟨cx, cy, cz⟩ : V3).subtract ⟨ox, oy, oz⟩).normalize =
      ⟨(cx - ox) / d, (cy - oy) / d, (cz - oz) / d⟩ := by
    simp only [V3.normalize]
    rw [hLrev]
    simp only [V3.subtract]
  rw [hdir]
  have hqa : Sphere.qa ⟨⟨ox, oy, oz⟩, ⟨(cx - ox) / d, (cy - oy) / d, (cz - oz) / d⟩⟩ = 1 := by
    simp only [Sphere.qa, V3.dot]
    field_simp
    linear_combination hS
  have hqb : Sphere.qb ⟨⟨cx, cy, cz⟩, r, col⟩
      ⟨⟨ox, oy, oz⟩, ⟨(cx - ox) / d, (cy - oy) / d, (cz - oz) / d⟩⟩ = -(2 * d) := by
    simp only [Sphere.qb, V3.subtract, V3.dot]
    field_simp
    linear_combination (-2 : ℝ) * hS
  have hqc : Sphere.qc ⟨⟨cx, cy, cz⟩, r, col⟩
      ⟨⟨ox, oy, oz⟩, ⟨(cx - ox) / d, (cy - oy) / d, (cz - oz) / d⟩⟩ = d * d - r * r := by
    simp only [Sphere.qc, V3.subtract, V3.dot]
    linear_combination hS
  have hdisc : Sphere.discriminant ⟨⟨cx, cy, cz⟩, r, col⟩
      ⟨⟨ox, oy, oz⟩, ⟨(cx - ox) / d, (cy - oy) / d, (cz - oz) / d⟩⟩ = (2 * r) * (2 * r) := by
    simp only [Sphere.discriminant, hqa, hqb, hqc]
    ring
  have hdiscnn : 0 ≤ Sphere.discriminant ⟨⟨cx, cy, cz⟩, r, col⟩
      ⟨⟨ox, oy, oz⟩, ⟨(cx - ox) / d, (cy - oy) / d, (cz - oz) / d⟩⟩ := by
    rw [hdisc]
    exact mul_self_nonneg _
  have hsqrt : Real.sqrt (Sphere.discriminant ⟨⟨cx, cy, cz⟩, r, col⟩
      ⟨⟨ox, oy, oz⟩, ⟨(cx - ox) / d, (cy - oy) / d, (cz - oz) / d⟩⟩) = 2 * r := by
    rw [hdisc]
    exact Real.sqrt_mul_self (by linarith)
  simp only [Sphere.intersect]
  rw [if_neg (not_lt.mpr hdiscnn)]
  rw [hqa, hqb, hsqrt]
  rw [show (-(-(2 * d)) + 2 * r) / 2 * 1 = d + r from by ring,
      show (-(-(2 * d)) - 2 * r) / 2 * 1 = d - r from by ring]
  have hT : min3 (d + r) (d - r) f64MAX = d - r := by
    simp only [min3]
    rw [if_neg (by rintro ⟨h1, -⟩; linarith), if_pos hmax]
  rw [hT]
  refine ⟨_, rfl, ?_, ?_⟩
  · show ((V3.add ⟨ox, oy, oz⟩ (V3.multiply ⟨(cx - ox) / d, (cy - oy) / d, (cz - oz) / d⟩
      (d - r))).subtract ⟨ox, oy, oz⟩).length = d - r
    rw [V3.add_sub_cancel, V3.length_multiply]
    rw [show (V3.mk ((cx - ox) / d) ((cy - oy) / d) ((cz - oz) / d)) =
      ((⟨cx, cy, cz⟩ : V3).subtract ⟨ox, oy, oz⟩).normalize from hdir.symm]
    rw [V3.normalize_length _ (by rw [hLrev]; exact hdne)]
    rw [abs_of_pos (by linarith), mul_one]
  · show ((V3.add ⟨ox, oy, oz⟩ (V3.multiply ⟨(cx - ox) / d, (cy - oy) / d, (cz - oz) / d⟩
      (d - r))).subtract ⟨cx, cy, cz⟩).normalize =
      (V3.multiply ⟨(cx - ox) / d, (cy - oy) / d, (cz - oz) / d⟩ (-1))
    have hvec : (V3.add ⟨ox, oy, oz⟩ (V3.multiply ⟨(cx - ox) / d, (cy - oy) / d, (cz - oz) / d⟩
        (d - r))).subtract ⟨cx, cy, cz⟩ =
        V3.multiply ⟨ox - cx, oy - cy, oz - cz⟩ (r / d) := by
      simp only [V3.add, V3.multiply, V3.subtract, V3.mk.injEq]
      refine ⟨?_, ?_, ?_⟩ <;> field_simp <;> ring
    rw [hvec, V3.normalize_multiply_pos _ (by positivity)]
    have hnormu : (⟨ox - cx, oy - cy, oz - cz⟩ : V3).normalize =
        ⟨(ox - cx) / d, (oy - cy) / d, (oz - cz) / d⟩ := by
      simp only [V3.normalize, V3.length]
      rw [hS, Real.sqrt_mul_self hd0.le]
    rw [hnormu]
    simp only [V3.multiply, V3.mk.injEq]
    refine ⟨by ring, by ring, by ring⟩

/-- C7 witness: the unit sphere at `(0,0,5)` seen head-on from the origin
(`d = 5`, `r = 1`) yields a hit at distance `4` with normal antiparallel
to the ray direction. -/
theorem C7_head_on_hit_witness :
    ∃ h : Hit,
      Sphere.intersect ⟨⟨0, 0, 5⟩, 1, ⟨0, 255, 0⟩⟩
        ⟨⟨0, 0, 0⟩, ((V3.mk 0 0 5).subtract ⟨0, 0, 0⟩).normalize⟩ = some h ∧
        h.distance = 5 - 1 ∧
        h.surface_normal = (((V3.mk 0 0 5).subtract ⟨0, 0, 0⟩).normalize).multiply (-1) := by
  have h25 : Real.sqrt 25 = 5 := sqrt_eval 25 5 (by norm_num) (by norm_num)
  exact C7_head_on_hit ⟨⟨0, 0, 5⟩, 1, ⟨0, 255, 0⟩⟩ ⟨0, 0, 0⟩ 5 (by norm_num) (by norm_num)
    (by simp only [V3.subtract, V3.length]; norm_num [h25]) (by norm_num [f64MAX])

/-- Finite `EF` addition computes exactly. -/
theorem EF.fin_add (a b : ℝ) : EF.add (.fin a) (.fin b) = .fin (a + b) := rfl

/-- Finite `EF` multiplication computes exactly. -/
theorem EF.fin_mul (a b : ℝ) : EF.mul (.fin a) (.fin b) = .fin (a * b) := rfl

/-- Finite `EF` subtraction computes exactly. -/
theorem EF.fin_sub (a b : ℝ) : EF.sub (.fin a) (.fin b) = .fin (a - b) := by
  simp only [EF.sub, EF.neg, EF.add, sub_eq_add_neg]

/-- A finite value times `+inf` follows the sign of the finite value. -/
theorem EF.fin_mul_pinf (a : ℝ) :
    EF.mul (.fin a) .pinf = if a > 0 then EF.pinf else if a < 0 then EF.minf else EF.nan := rfl

/-- Adding `+inf` to a finite value gives `+inf`. -/
theorem EF.fin_add_pinf (a : ℝ) : EF.add (.fin a) .pinf = .pinf := rfl

/-- Adding `-inf` to a finite value gives `-inf`. -/
theorem EF.fin_add_minf (a : ℝ) : EF.add (.fin a) .minf = .minf := rfl

/-- Adding `NaN` to a finite value gives `NaN`. -/
theorem EF.fin_add_nan (a : ℝ) : EF.add (.fin a) .nan = .nan := rfl

/-- Division of a nonzero finite numerator by (positive) zero, negated:
the sign of the numerator picks the infinity, and `0/0` gives `NaN`. -/
theorem EF_parallel_guard (N : ℝ) :
    EF.neg (EF.div (.fin N) (.fin 0)) =
      if N > 0 then EF.minf else if N < 0 then EF.pinf else EF.nan := by
  have hdiv : EF.div (.fin N) (.fin 0) =
      if N > 0 then EF.pinf else if N < 0 then EF.minf else EF.nan := by
    simp [EF.div]
  rw [hdiv]
  split_ifs <;> rfl

/-- The continuation rejects a `-inf` parameter at the behind-origin
guard. -/
theorem intersectF_rest_minf (self : Triangle) (ray : Ray) :
    Triangle.intersectF_rest self ray .minf = none := by
  simp only [Triangle.intersectF_rest]
  rw [if_pos]
  rfl

/-- With a `NaN` parameter every intersection coordinate is `NaN`, all
bounding-box comparisons are false, and the first same-side test fails, so
the continuation rejects. -/
theorem intersectF_rest_nan (self : Triangle) (ray : Ray) :
    Triangle.intersectF_rest self ray .nan = none := by
  simp [Triangle.intersectF_rest, V3.toF, V3F.add, V3F.multiply, V3F.subtract,
    V3F.cross, V3F.dot, EF.mul, EF.add, EF.sub, EF.neg, EF.lt, EF.gt,
    points_are_on_same_side_of_rayF]

/-- With a `+inf` parameter and a nonzero ray direction, the first axis
with a nonzero direction component makes an intersection coordinate
`±inf`, which fails its bounding-box comparison (`NaN` coordinates from
zero components pass all comparisons vacuously), so the continuation
rejects. -/
theorem intersectF_rest_pinf (self : Triangle) (ray : Ray)
    (hdir : ray.direction ≠ ⟨0, 0, 0⟩) :
    Triangle.intersectF_rest self ray .pinf = none := by
  obtain ⟨⟨ox, oy, oz⟩, ⟨dx, dy, dz⟩⟩ := ray
  simp only at hdir
  simp only [Triangle.intersectF_rest, V3.toF, V3F.add, V3F.multiply,
    EF.fin_mul_pinf]
  rw [if_neg (by simp [EF.lt])]
  rcases lt_trichotomy dx 0 with hdx | hdx | hdx
  · rw [if_neg (by linarith : ¬ dx > 0), if_pos hdx, EF.fin_add_minf]
    rw [if_pos]
    rfl
  · rw [if_neg (by rw [hdx]; norm_num : ¬ dx > 0),
        if_neg (by rw [hdx]; norm_num : ¬ dx < 0), EF.fin_add_nan]
    rw [if_neg (by simp [EF.lt]), if_neg (by simp [EF.gt, EF.lt])]
    rcases lt_trichotomy dy 0 with hdy | hdy | hdy
    · rw [if_neg (by linarith : ¬ dy > 0), if_pos hdy, EF.fin_add_minf]
      rw [if_pos]
      rfl
    · rw [if_neg (by rw [hdy]; norm_num : ¬ dy > 0),
          if_neg (by rw [hdy]; norm_num : ¬ dy < 0), EF.fin_add_nan]
      rw [if_neg (by simp [EF.lt]), if_neg (by simp [EF.gt, EF.lt])]
      rcases lt_trichotomy dz 0 with hdz | hdz | hdz
      · rw [if_neg (by linarith : ¬ dz > 0), if_pos hdz, EF.fin_add_minf]
        rw [if_pos]
        rfl
      · exfalso
        apply hdir
        rw [hdx, hdy, hdz]
      · rw [if_pos hdz, EF.fin_add_pinf]
        rw [if_neg (by simp [EF.lt]), if_pos]
        rfl
    · rw [if_pos hdy, EF.fin_add_pinf]
      rw [if_neg (by simp [EF.lt]), if_pos]
      rfl
  · rw [if_pos hdx, EF.fin_add_pinf]
    rw [if_neg (by simp [EF.lt]), if_pos]
    rfl

set_option maxHeartbeats 1000000 in
/-- C8: a ray parallel to a (nondegenerate) triangle's plane — the plane
normal perpendicular to the nonzero ray direction — produces no hit in
the IEEE model: the ray-plane division by the exactly-zero denominator
yields `±inf` or `NaN`, and every subsequent comparison path rejects. -/
theorem C8_parallel_ray_no_hit (tri : Triangle) (ray : Ray)
    (hperp : tri.normal.dot ray.direction = 0)
    (hnd : tri.normal ≠ ⟨0, 0, 0⟩)
    (hdir : ray.direction ≠ ⟨0, 0, 0⟩) :
    tri.intersectF ray = none := by
  simp only [Triangle.normal, V3.subtract, V3.cross, V3.dot] at hperp
  simp only [Triangle.intersectF, V3.toF, V3F.subtract, V3F.cross, V3F.multiply,
    V3F.dot, EF.fin_sub, EF.fin_mul, EF.fin_add]
  rw [hperp, EF_parallel_guard]
  split_ifs with h1 h2
  · exact intersectF_rest_minf _ _
  · exact intersectF_rest_pinf _ _ hdir
  · exact intersectF_rest_nan _ _

/-- C8 witness: the triangle in the plane `z = 1` with normal `(0,0,1)`
and the ray from `(5,5,0)` along `+x` (perpendicular to the normal)
produce no hit. -/
theorem C8_parallel_ray_no_hit_witness :
    Triangle.intersectF ⟨⟨0, 0, 1⟩, ⟨1, 0, 1⟩, ⟨0, 1, 1⟩, ⟨0, 255, 0⟩⟩
      ⟨⟨5, 5, 0⟩, ⟨1, 0, 0⟩⟩ = none := by
  apply C8_parallel_ray_no_hit
  · simp only [Triangle.normal, V3.cross, V3.subtract, V3.dot]
    norm_num
  · simp only [Triangle.normal, V3.cross, V3.subtract, ne_eq, V3.mk.injEq]
    norm_num
  · simp only [ne_eq, V3.mk.injEq]
    norm_num

end

end RT